import Mathlib

/-!
# File-Format-Converter: verification of the conversion-pipeline core

A shallow embedding, in Lean 4, of the Go sources of the
`eka026/File-Format-Converter` repository, together with proofs about the
claims of its natural-language specification.

Conventions used throughout:

* Go `string` is Lean `String`; Go byte/char handling is modelled on the
  character level (all strings relevant to the claims are ASCII).
* Go `error` values are modelled as `Option GoError` (`none` = `nil`);
  a `GoError` keeps only the message, which is all the code ever inspects.
* `context.Context` is modelled as `Ctx := Nat → Bool`: the value returned
  by the k-th call to `ctx.Err()` during an operation (`true` = cancelled,
  in which case `ctx.Err()` returns a non-nil error).  Call sites thread an
  explicit tick counter.  `ctxNever` is `context.Background()`.
* File-system effects are modelled by explicit state passing plus a trace
  of `IOEvent`s; outcomes of external libraries (image codecs) are supplied
  by explicit oracle records so that every failure path of the repository's
  own code can be exercised.
* Go maps are modelled as association lists with overwrite-on-insert, or as
  `Finset`s when only the key set matters.
-/

namespace FFC

/-- Go `error` values: only the message is ever inspected by this code base. -/
abbrev GoError := String

/-- Model of `context.Context`: the value of the k-th `ctx.Err()` check. -/
abbrev Ctx := Nat → Bool

/-- `context.Background()`: never cancelled. -/
def ctxNever : Ctx := fun _ => false

/-- The error message `context.Canceled` carries. -/
def ctxCanceledMsg : GoError := "context canceled"

/-! ## Go standard-library string/path helpers used by the sources

These model `strings` and `path/filepath` functions for slash-separated
paths; all behaviour the claims depend on is the standard documented one. -/

/-- `strings.ToLower` (ASCII; every extension and format string the code
compares against is ASCII). -/
def goToLower (s : String) : String :=
  String.mk (s.data.map Char.toLower)

/-- Scan a path right-to-left (the argument is the reversed character list,
`acc` the characters already passed, in original order): stop at a path
separator, return the suffix starting at the first dot found. -/
def goExtAux : List Char → List Char → Option (List Char)
  | _, [] => none
  | acc, c :: rest =>
    if c = '/' then none
    else if c = '.' then some (c :: acc)
    else goExtAux (c :: acc) rest

/-- `filepath.Ext`: the suffix beginning at the final dot in the final
path element; empty when that element has no dot. -/
def goExt (path : String) : String :=
  match goExtAux [] path.data.reverse with
  | some l => String.mk l
  | none => ""

/-- `strings.HasPrefix` (on the character level, so that concrete
instances evaluate in the kernel). -/
def goHasPrefix (s prefixStr : String) : Bool :=
  prefixStr.data.isPrefixOf s.data

/-- `strings.TrimSuffix`. -/
def goTrimSuffix (s suffixStr : String) : String :=
  if suffixStr.data.isSuffixOf s.data then
    String.mk (s.data.take (s.data.length - suffixStr.data.length))
  else s

end FFC

namespace FFC

/-! ## `internal/domain`: formats, file types, results

From `src/unnamed/part_005` (package `domain`): `Format` and `FileType` are
string types with the constants below.  Note the `Format` enumeration has
no JPEG constant. -/

/-- Go `type Format string` — output file formats (`src/unnamed/part_005`). -/
abbrev Format := String

def FormatPDF : Format := "PDF"
def FormatHTML : Format := "HTML"
def FormatPNG : Format := "PNG"
def FormatWEBP : Format := "WEBP"

/-- Go `type FileType string` — input file types (`src/unnamed/part_005`). -/
abbrev FileType := String

def FileTypeXLSX : FileType := "XLSX"
def FileTypeDOCX : FileType := "DOCX"
def FileTypeJPEG : FileType := "JPEG"
def FileTypePNG : FileType := "PNG"
def FileTypeWEBP : FileType := "WEBP"

/-- File-system / library side effects recorded while a conversion runs. -/
inductive IOEvent where
  /-- a `stat`-style existence check (`fileWriter.Exists`). -/
  | statFile (path : String)
  /-- opening a file for reading (`os.Open`, `imaging.Open`). -/
  | openFile (path : String)
  /-- decoding an image read from `path`. -/
  | decodeImage (path : String)
  /-- `os.Create`. -/
  | createFile (path : String)
  /-- `os.Remove`. -/
  | removeFile (path : String)
  deriving DecidableEq, Repr

/-- A conversion engine as the `ConverterService` sees it
(`domain.IConverter`): `Validate` and `Convert`, each returning a Go error
and the file I/O it performed.  Engine-internal `ctx` checks surface as
the returned error. -/
structure EngineM where
  validate : String → Option GoError × List IOEvent
  convert : String → String → Option GoError × List IOEvent

/-- `domain.Result` (the `Duration` field carries wall-clock time and is
not modelled). -/
structure GoResult where
  success : Bool
  outputPath : String
  error : Option GoError
  deriving DecidableEq, Repr

/-- `domain.ValidationResult` (the `Message` field). -/
structure GoValidationResult where
  valid : Bool
  message : String
  error : Option GoError
  deriving DecidableEq, Repr

/-- The state a `ConverterService` closes over: the engine map and the
file-existence answers of its `fileWriter` (logger and progress notifier
perform no data-relevant effects). -/
structure ServiceEnv where
  engines : List (FileType × EngineM)
  fileExists : String → Bool

/-- `ConverterService.GetSupportedFormats` (converter_service.go:209-224):
returns `nil` for an empty engine map and otherwise the fixed list
`[PDF, HTML, PNG, WEBP]`. -/
def getSupportedFormats (env : ServiceEnv) : List Format :=
  if env.engines.length = 0 then []
  else [FormatPDF, FormatHTML, FormatPNG, FormatWEBP]

/-- `ConverterService.detectFileType` (converter_service.go:339-355).
The empty string is the Go function's "unknown" sentinel. -/
def detectFileType (filePath : String) : FileType :=
  let ext := goToLower (goExt filePath)
  if ext = ".docx" then FileTypeDOCX
  else if ext = ".xlsx" then FileTypeXLSX
  else if ext = ".jpeg" ∨ ext = ".jpg" then FileTypeJPEG
  else if ext = ".png" then FileTypePNG
  else if ext = ".webp" then FileTypeWEBP
  else ""

/-- `ConverterService.selectEngine` (converter_service.go:283-289):
Go-map lookup, `nil` when the key is absent. -/
def selectEngine (env : ServiceEnv) (fileType : FileType) : Option EngineM :=
  (env.engines.lookup fileType)

end FFC

namespace FFC

/-- `filepath.Dir` for slash-separated paths without redundant separators
(the `Clean` normalisation, irrelevant to every claim, is elided): all but
the last path element, `"."` when there is no separator. -/
def goDir (path : String) : String :=
  match goDirAux [] path.data.reverse with
  | some l => String.mk l
  | none => "."
where
  goDirAux : List Char → List Char → Option (List Char)
    | _, [] => none
    | acc, c :: rest =>
      if c = '/' then some rest.reverse
      else goDirAux (c :: acc) rest

/-- `filepath.Base` for such paths: the last path element. -/
def goBase (path : String) : String :=
  String.mk ((path.data.reverse.takeWhile (· ≠ '/')).reverse)

/-- `filepath.Join` of two non-empty components (`Clean` elided). -/
def goJoin (dir file : String) : String :=
  if dir = "" then file else dir ++ "/" ++ file

/-- `ConverterService.generateOutputPath` (converter_service.go:358-369):
replace the extension by the lowercased target format, folding `jpg` to
`jpeg`. -/
def generateOutputPath (inputPath targetFormat : String) : String :=
  let dir := goDir inputPath
  let baseName := goTrimSuffix (goBase inputPath) (goExt inputPath)
  let ext := goToLower targetFormat
  let ext := if ext = "jpg" then "jpeg" else ext
  goJoin dir (baseName ++ "." ++ ext)

/-- `ConverterService.validateInput` (converter_service.go:292-336).
Returns the validation result, the next `ctx` tick and the file I/O
performed. -/
def validateInput (ctx : Ctx) (t : Nat) (env : ServiceEnv) (file : String) :
    GoValidationResult × Nat × List IOEvent :=
  if ctx t then
    ({ valid := false, message := "Validation cancelled",
       error := some ctxCanceledMsg }, t + 1, [])
  else
    let t := t + 1
    if !env.fileExists file then
      ({ valid := false, message := "File does not exist",
         error := some ("file does not exist: " ++ file) }, t, [.statFile file])
    else
      let fileType := detectFileType file
      if fileType = "" then
        ({ valid := false, message := "Unsupported file type",
           error := some ("unsupported file type: " ++ file) }, t, [.statFile file])
      else
        match selectEngine env fileType with
        | none =>
          ({ valid := false, message := "No conversion engine available for this file type",
             error := some ("no conversion engine available for file type: " ++ fileType) },
           t, [.statFile file])
        | some _ =>
          ({ valid := true, message := "Input file is valid", error := none },
           t, [.statFile file])

/-- The failure `Result` every error branch of `Convert` builds:
`Success=false`, `OutputPath=""`, the error passed along. -/
def failResult (e : GoError) : GoResult :=
  { success := false, outputPath := "", error := some e }

/-- `ConverterService.Convert` (converter_service.go:40-164), with the
`ctx.Err()` checks of the service itself threaded through the tick
counter: check on entry, check inside `validateInput`, check after
validation, check before the engine conversion. -/
def serviceConvert (ctx : Ctx) (t : Nat) (env : ServiceEnv) (source target : String) :
    GoResult × Nat × List IOEvent :=
  if ctx t then (failResult ctxCanceledMsg, t + 1, [])
  else
    let t := t + 1
    match validateInput ctx t env source with
    | (vr, t, ev) =>
      if !vr.valid then
        ({ success := false, outputPath := "", error := vr.error }, t, ev)
      else if ctx t then (failResult ctxCanceledMsg, t + 1, ev)
      else
        let t := t + 1
        let fileType := detectFileType source
        if fileType = "" then
          (failResult ("unsupported file type: " ++ source), t, ev)
        else
          match selectEngine env fileType with
          | none =>
            (failResult ("no conversion engine available for file type: " ++ fileType), t, ev)
          | some engine =>
            match engine.validate source with
            | (some err, ev2) => (failResult err, t, ev ++ ev2)
            | (none, ev2) =>
              if ctx t then (failResult ctxCanceledMsg, t + 1, ev ++ ev2)
              else
                let t := t + 1
                match engine.convert source target with
                | (some err, ev3) => (failResult err, t, ev ++ ev2 ++ ev3)
                | (none, ev3) =>
                  ({ success := true, outputPath := target, error := none },
                   t, ev ++ ev2 ++ ev3)

/-- The `Result` component of `serviceConvert`. -/
def serviceConvertR (ctx : Ctx) (t : Nat) (env : ServiceEnv) (source target : String) :
    GoResult :=
  (serviceConvert ctx t env source target).1

/-- The per-file loop of `BatchConvert` (converter_service.go:184-202):
before each file the context is checked (returning the partial results
collected so far), then the file is converted into its generated output
path and the result stored at the file's index. -/
def batchLoop (ctx : Ctx) (env : ServiceEnv) (target : String) :
    List String → Nat → List GoResult × Nat
  | [], t => ([], t)
  | f :: fs, t =>
    if ctx t then ([], t + 1)
    else
      let t := t + 1
      match serviceConvert ctx t env f (generateOutputPath f target) with
      | (r, t', _) =>
        match batchLoop ctx env target fs t' with
        | (rs, t'') => (r :: rs, t'')

/-- `ConverterService.BatchConvert` (converter_service.go:167-206):
empty input returns `nil`; a context cancelled before the start returns
`nil`; otherwise the files are converted sequentially. -/
def serviceBatchConvert (ctx : Ctx) (t : Nat) (env : ServiceEnv)
    (files : List String) (target : String) : List GoResult × Nat :=
  if files.isEmpty then ([], t)
  else if ctx t then ([], t + 1)
  else batchLoop ctx env target files (t + 1)

end FFC

namespace FFC

/-- Under `context.Background()` the result (and trace) of `Convert` do not
depend on the tick counter: only `ctx.Err()` reads it. -/
theorem validateInput_ctxNever (t : Nat) (env : ServiceEnv) (file : String) :
    validateInput ctxNever t env file =
      ((validateInput ctxNever 0 env file).1, t + 1,
        (validateInput ctxNever 0 env file).2.2) := by
  unfold validateInput
  simp [ctxNever]
  repeat' split <;> try rfl

theorem serviceConvert_ctxNever_tick (t : Nat) (env : ServiceEnv) (source target : String) :
    (serviceConvert ctxNever t env source target).1 =
      (serviceConvert ctxNever 0 env source target).1 := by
  unfold serviceConvert
  dsimp only
  rw [validateInput_ctxNever (t + 1), validateInput_ctxNever (0 + 1)]
  simp [ctxNever]
  repeat' split <;> try rfl

end FFC

namespace FFC

/-- Under `context.Background()`, the sequential batch loop converts each
file in order into its generated output path. -/
theorem batchLoop_ctxNever (env : ServiceEnv) (target : String) :
    ∀ (fs : List String) (t : Nat),
      (batchLoop ctxNever env target fs t).1 =
        fs.map (fun f => serviceConvertR ctxNever 0 env f (generateOutputPath f target)) := by
  intro fs
  induction fs with
  | nil => intro t; rfl
  | cons f fs ih =>
    intro t
    unfold batchLoop
    simp only [ctxNever, Bool.false_eq_true, if_false, List.map_cons]
    have h1 := serviceConvert_ctxNever_tick (t + 1) env f (generateOutputPath f target)
    rcases hc : serviceConvert ctxNever (t + 1) env f (generateOutputPath f target) with ⟨r, t', ev⟩
    rcases hl : batchLoop ctxNever env target fs t' with ⟨rs, t''⟩
    dsimp only
    have hr : r = serviceConvertR ctxNever 0 env f (generateOutputPath f target) := by
      unfold serviceConvertR
      rw [← h1, hc]
    have hrs : rs = fs.map (fun f => serviceConvertR ctxNever 0 env f (generateOutputPath f target)) := by
      rw [← ih t', hl]
    rw [hr, hrs]

end FFC

namespace FFC

/-- Under `context.Background()`, `BatchConvert` maps `Convert` over the
file list (sequentially, converter_service.go:184-202). -/
theorem serviceBatchConvert_ctxNever (env : ServiceEnv) (target : String)
    (files : List String) :
    (serviceBatchConvert ctxNever 0 env files target).1 =
      files.map (fun f => serviceConvertR ctxNever 0 env f (generateOutputPath f target)) := by
  unfold serviceBatchConvert
  simp only [ctxNever, Bool.false_eq_true, if_false]
  split
  · next h =>
    rw [List.isEmpty_iff.mp h]
    rfl
  · exact batchLoop_ctxNever env target files 1

/-- `image.BatchConversionTask` (internal/engines/image/engine.go:114-118). -/
structure BatchConversionTask where
  inputPath : String
  outputPath : String
  index : Nat
  deriving DecidableEq, Repr

/-- `image.BatchConversionResult` (internal/engines/image/engine.go:121-124). -/
structure BatchConversionResult where
  index : Nat
  error : Option GoError
  deriving DecidableEq, Repr

/-- One completed task writing its result into the shared result slice at
the task's own index, under the mutex (engine.go:151-157). -/
def writeResult (conv : String → String → Option GoError)
    (res : List BatchConversionResult) (task : BatchConversionTask) :
    List BatchConversionResult :=
  res.set task.index ⟨task.index, conv task.inputPath task.outputPath⟩

/-- `ImageEngine.BatchConvert` (engine.go:129-165): `results` starts as a
zero-valued slice of the submitted length; the workers execute the
submitted tasks in some completion order `execOrder` (the mutex serialises
the slice writes) and `wg.Wait` returns only after every submitted task
has run. -/
def imageBatchConvert (conv : String → String → Option GoError)
    (n : Nat) (execOrder : List BatchConversionTask) : List BatchConversionResult :=
  execOrder.foldl (writeResult conv) (List.replicate n ⟨0, none⟩)

/-- Folding result writes over any execution order: slot `k` holds `v` as
soon as some executed task has index `k` and every such task writes `v`. -/
theorem foldl_writeResult_getElem? (conv : String → String → Option GoError)
    (k : Nat) (v : BatchConversionResult) :
    ∀ (order : List BatchConversionTask) (init : List BatchConversionResult),
      k < init.length →
      (∀ tk ∈ order, tk.index = k →
        (⟨k, conv tk.inputPath tk.outputPath⟩ : BatchConversionResult) = v) →
      (order.foldl (writeResult conv) init)[k]? =
        if order.any (fun tk => tk.index = k) then some v else init[k]? := by
  intro order
  induction order with
  | nil => intro init _ _; simp
  | cons tk rest ih =>
    intro init hk hall
    have hlen : k < (writeResult conv init tk).length := by
      simpa [writeResult] using hk
    by_cases hidx : tk.index = k
    · have hv : (⟨k, conv tk.inputPath tk.outputPath⟩ : BatchConversionResult) = v :=
        hall tk (by simp) hidx
      have hinit : (writeResult conv init tk)[k]? = some v := by
        rw [writeResult, hidx, List.getElem?_set_eq_of_lt _ hk, ← hv]
      rw [List.foldl_cons, ih (writeResult conv init tk) hlen
        (fun t ht h => hall t (by simp [ht]) h)]
      simp [hidx, hinit]
    · rw [List.foldl_cons, ih (writeResult conv init tk) hlen
        (fun t ht h => hall t (by simp [ht]) h)]
      have hinit : (writeResult conv init tk)[k]? = init[k]? := by
        rw [writeResult, List.getElem?_set_ne hidx]
      simp [hidx, hinit]

end FFC

namespace FFC

/-- When every submitted task carries its own list position as `Index`,
any completion order that is a permutation of the submissions leaves slot
`k` holding exactly the result of the `k`-th submitted task. -/
theorem imageBatchConvert_indexAligned (conv : String → String → Option GoError)
    (tasks execOrder : List BatchConversionTask)
    (hidx : ∀ i (h : i < tasks.length), (tasks.get ⟨i, h⟩).index = i)
    (hperm : execOrder.Perm tasks) (k : Nat) (hk : k < tasks.length) :
    (imageBatchConvert conv tasks.length execOrder)[k]? =
      some ⟨k, conv (tasks.get ⟨k, hk⟩).inputPath (tasks.get ⟨k, hk⟩).outputPath⟩ := by
  have htk : ∀ tk ∈ execOrder, tk.index = k → tk = tasks.get ⟨k, hk⟩ := by
    intro tk htmem hi
    have : tk ∈ tasks := hperm.mem_iff.mp htmem
    obtain ⟨⟨j, hj⟩, hget⟩ := List.mem_iff_get.mp this
    have hj' : tk.index = j := by rw [← hget]; exact hidx j hj
    have : j = k := by rw [← hj', hi]
    subst this
    rw [← hget]
  have hmem : tasks.get ⟨k, hk⟩ ∈ execOrder :=
    hperm.mem_iff.mpr (List.get_mem tasks k hk)
  rw [imageBatchConvert, foldl_writeResult_getElem? conv k _ execOrder _
    (by simpa using hk)
    (fun tk ht hi => by rw [htk tk ht hi])]
  have hany : execOrder.any (fun tk => tk.index = k) = true := by
    rw [List.any_eq_true]
    refine ⟨tasks.get ⟨k, hk⟩, hmem, ?_⟩
    have := hidx k hk
    simp_all
  simp [hany]

end FFC

namespace FFC

/-- An engine whose operations always succeed without I/O; used to build
concrete service environments. -/
def trivialEngine : EngineM :=
  { validate := fun _ => (none, []), convert := fun _ _ => (none, []) }

/-- A concrete `ConverterService` environment with a non-empty engine map. -/
def envOneEngine : ServiceEnv :=
  { engines := [(FileTypePNG, trivialEngine)], fileExists := fun _ => true }

/-- **C1, counterexample.**  The claim asserts that `GetSupportedFormats()`
on a service with a non-empty engine map returns every one of the five
formats pdf, html, png, jpeg, webp; but the returned list contains no JPEG
format (the `domain.Format` enumeration has no JPEG constant at all), so
the claimed five-element list is not what is returned. -/
theorem getSupportedFormats_no_jpeg :
    ("JPEG" ∉ getSupportedFormats envOneEngine) ∧
      ("jpeg" ∉ getSupportedFormats envOneEngine) ∧
      (getSupportedFormats envOneEngine).length = 4 := by
  refine ⟨?_, ?_, rfl⟩ <;> decide

/-- **C1 (amended).**  `GetSupportedFormats()` on a `ConverterService`
constructed with a non-empty engine map returns exactly the format list
`{pdf, html, png, webp}` — jpeg is missing from the returned list
(converter_service.go:218-223 returns the four constants of
`domain.Format`, which has no JPEG member). -/
theorem getSupportedFormats_eq (env : ServiceEnv) (h : env.engines ≠ []) :
    getSupportedFormats env = [FormatPDF, FormatHTML, FormatPNG, FormatWEBP] := by
  unfold getSupportedFormats
  rw [if_neg]
  simpa using h

/-- **C1, witness.** -/
theorem getSupportedFormats_eq_witness :
    getSupportedFormats envOneEngine = [FormatPDF, FormatHTML, FormatPNG, FormatWEBP] :=
  getSupportedFormats_eq envOneEngine (by simp [envOneEngine])

/-- `validateInput` returns either a valid result or one carrying a
non-nil error. -/
theorem validateInput_shape (ctx : Ctx) (t : Nat) (env : ServiceEnv) (file : String) :
    (validateInput ctx t env file).1.valid = true ∨
      ∃ e, (validateInput ctx t env file).1.error = some e := by
  unfold validateInput
  by_cases h1 : ctx t = true
  · simp [h1]
  · rw [if_neg h1]
    by_cases h2 : env.fileExists file = true
    · rw [if_neg (by simp [h2])]
      by_cases h3 : detectFileType file = ""
      · rw [if_pos h3]
        simp
      · rw [if_neg h3]
        cases hse : selectEngine env (detectFileType file) <;> simp
    · rw [if_pos (by simp [Bool.not_eq_true] at h2 ⊢; exact h2)]
      simp

/-- `Convert` returns either a success carrying the target path and no
error, or a failure with empty output path and a non-nil error
(converter_service.go:40-164: every error branch builds the same
failure shape and the single success branch the same success shape). -/
theorem serviceConvert_shape (ctx : Ctx) (t : Nat) (env : ServiceEnv)
    (source target : String) :
    ((serviceConvertR ctx t env source target).success = true ∧
      (serviceConvertR ctx t env source target).outputPath = target ∧
      (serviceConvertR ctx t env source target).error = none) ∨
    ((serviceConvertR ctx t env source target).success = false ∧
      (serviceConvertR ctx t env source target).outputPath = "" ∧
      ∃ e, (serviceConvertR ctx t env source target).error = some e) := by
  unfold serviceConvertR serviceConvert
  dsimp only
  split
  · simp [failResult]
  · rcases hv : validateInput ctx (t + 1) env source with ⟨vr, tv, ev⟩
    have hvr := validateInput_shape ctx (t + 1) env source
    rw [hv] at hvr
    dsimp only at hvr ⊢
    split
    · next h =>
      rcases hvr with hvalid | ⟨e, he⟩
      · exact absurd hvalid (by simpa using h)
      · exact Or.inr ⟨rfl, rfl, e, he⟩
    · by_cases h2 : ctx tv = true
      · simp [h2, failResult]
      · rw [if_neg h2]
        by_cases h3 : detectFileType source = ""
        · rw [if_pos h3]
          simp [failResult]
        · rw [if_neg h3]
          cases hse : selectEngine env (detectFileType source) with
          | none => simp [failResult]
          | some engine =>
            dsimp only
            rcases hev : engine.validate source with ⟨oe, ev2⟩
            cases oe with
            | some err => simp [failResult]
            | none =>
              dsimp only
              by_cases h4 : ctx (tv + 1) = true
              · simp [h4, failResult]
              · rw [if_neg h4]
                rcases hec : engine.convert source target with ⟨oc, ev3⟩
                cases oc with
                | some err => simp [failResult]
                | none => simp

/-- **C10.**  Every `Result` returned by `ConverterService.Convert`
satisfies: `Success` is true iff `Error` is `nil`; when `Success` is true
`OutputPath` equals the `target` argument; and when `Success` is false
`OutputPath` is the empty string.  (Quantified over every context
behaviour, tick, environment and path pair.) -/
theorem convert_result_invariant (ctx : Ctx) (t : Nat) (env : ServiceEnv)
    (source target : String) :
    ((serviceConvertR ctx t env source target).success = true ↔
      (serviceConvertR ctx t env source target).error = none) ∧
    ((serviceConvertR ctx t env source target).success = true →
      (serviceConvertR ctx t env source target).outputPath = target) ∧
    ((serviceConvertR ctx t env source target).success = false →
      (serviceConvertR ctx t env source target).outputPath = "") := by
  rcases serviceConvert_shape ctx t env source target with
    ⟨hs, hp, he⟩ | ⟨hs, hp, e, he⟩ <;> simp [hs, hp, he]

end FFC

namespace FFC

/-- **C2.**  `ConverterService.BatchConvert` returns one result per input
file, with `results[i]` the `Convert` result for `files[i]` (so the empty
list yields the empty result list); and in the parallel image batch, for
every completion order that is a permutation of the submitted tasks the
slot `k` of the result slice holds exactly the result of the `k`-th
submitted task — index alignment is independent of which worker ran each
task and in what order. -/
theorem batchConvert_index_aligned
    (env : ServiceEnv) (files : List String) (target : String)
    (conv : String → String → Option GoError)
    (tasks execOrder : List BatchConversionTask)
    (hidx : ∀ i (h : i < tasks.length), (tasks.get ⟨i, h⟩).index = i)
    (hperm : execOrder.Perm tasks) :
    ((serviceBatchConvert ctxNever 0 env files target).1.length = files.length) ∧
    (∀ i (h : i < files.length),
      ((serviceBatchConvert ctxNever 0 env files target).1)[i]? =
        some (serviceConvertR ctxNever 0 env (files.get ⟨i, h⟩)
          (generateOutputPath (files.get ⟨i, h⟩) target))) ∧
    (∀ k (hk : k < tasks.length),
      (imageBatchConvert conv tasks.length execOrder)[k]? =
        some ⟨k, conv (tasks.get ⟨k, hk⟩).inputPath (tasks.get ⟨k, hk⟩).outputPath⟩) := by
  refine ⟨?_, ?_, ?_⟩
  · rw [serviceBatchConvert_ctxNever, List.length_map]
  · intro i h
    rw [serviceBatchConvert_ctxNever]
    rw [List.getElem?_map]
    rw [List.getElem?_eq_getElem h]
    simp [List.get_eq_getElem]
  · exact fun k hk => imageBatchConvert_indexAligned conv tasks execOrder hidx hperm k hk

/-- **C2, witness**: a two-file batch and a two-task image batch executed
in reverse order. -/
theorem batchConvert_index_aligned_witness :
    ((serviceBatchConvert ctxNever 0 envOneEngine ["a.png", "b.png"] "webp").1.length = 2) ∧
    (∀ i (h : i < (["a.png", "b.png"] : List String).length),
      ((serviceBatchConvert ctxNever 0 envOneEngine ["a.png", "b.png"] "webp").1)[i]? =
        some (serviceConvertR ctxNever 0 envOneEngine ((["a.png", "b.png"] : List String).get ⟨i, h⟩)
          (generateOutputPath ((["a.png", "b.png"] : List String).get ⟨i, h⟩) "webp"))) ∧
    (∀ k (_hk : k < ([⟨"x.png", "x.webp", 0⟩, ⟨"y.png", "y.webp", 1⟩] : List BatchConversionTask).length),
      (imageBatchConvert (fun _ _ => none) 2
          [⟨"y.png", "y.webp", 1⟩, ⟨"x.png", "x.webp", 0⟩])[k]? =
        some ⟨k, none⟩) := by
  have h := batchConvert_index_aligned envOneEngine ["a.png", "b.png"] "webp"
    (fun _ _ => none)
    [⟨"x.png", "x.webp", 0⟩, ⟨"y.png", "y.webp", 1⟩]
    [⟨"y.png", "y.webp", 1⟩, ⟨"x.png", "x.webp", 0⟩]
    (by decide) (by decide)
  refine ⟨h.1, h.2.1, ?_⟩
  intro k hk
  have hres := h.2.2 k hk
  match k, hk with
  | 0, _ => simpa using hres
  | 1, _ => simpa using hres

end FFC

namespace FFC

/-- Contents of a file in the modelled file system, as far as the image
codecs can distinguish them. -/
inductive FileKind where
  | jpegData
  | pngData
  | webpData
  /-- a freshly created / partially written output file. -/
  | partialData
  | otherData
  deriving DecidableEq, Repr

/-- The modelled file system: an association of paths to contents. -/
abbrev FSState := List (String × FileKind)

/-- Does a file exist at `path`? -/
def fsHas (fs : FSState) (path : String) : Bool :=
  (fs.lookup path).isSome

/-- `os.Create` semantics: the file at `path` now has content `k`. -/
def fsPut (fs : FSState) (path : String) (k : FileKind) : FSState :=
  (path, k) :: fs.filter (fun e => e.1 != path)

/-- `os.Remove` semantics. -/
def fsRemove (fs : FSState) (path : String) : FSState :=
  fs.filter (fun e => e.1 != path)

/-- `imaging.Open` (disintegration/imaging, used for every non-WebP
input): opens and decodes; the registered decoders handle JPEG and PNG
(not WebP). -/
def imagingOpen (fs : FSState) (path : String) : Option GoError × List IOEvent :=
  match fs.lookup path with
  | none => (some ("open " ++ path ++ ": no such file or directory"), [.openFile path])
  | some k =>
    if k = FileKind.jpegData ∨ k = FileKind.pngData then
      (none, [.openFile path, .decodeImage path])
    else
      (some "image: unknown format", [.openFile path, .decodeImage path])

/-- `golang.org/x/image/webp` decoding of an opened file. -/
def xWebpDecode (fs : FSState) (path : String) : Option GoError × List IOEvent :=
  match fs.lookup path with
  | none => (some ("open " ++ path ++ ": no such file or directory"), [.openFile path])
  | some k =>
    if k = FileKind.webpData then
      (none, [.openFile path, .decodeImage path])
    else
      (some "webp: invalid format", [.openFile path, .decodeImage path])

/-- Outcomes of the external encoder / file-creation calls an image
conversion makes, supplied explicitly so that every failure path of the
repository's own code can be exercised. -/
structure ImageOracle where
  /-- does `os.Create` succeed for this path? -/
  createOk : String → Bool
  /-- outcome of `nativewebp.Encode` (HugoSmits86/nativewebp). -/
  nativeWebpEncodeErr : Option GoError
  /-- outcome of the encode step inside `imaging.Save`. -/
  imagingEncodeErr : Option GoError
  /-- outcome of `webp.Encode` (chai2010/webp, used by `WebPEncoder`). -/
  chaiWebpEncodeErr : Option GoError

/-- The extensions `imaging.Save` accepts (`FormatFromFilename` is
checked before any file is created). -/
def imagingSaveSupportedExt (ext : String) : Bool :=
  ext = ".jpg" ∨ ext = ".jpeg" ∨ ext = ".png" ∨ ext = ".gif" ∨
    ext = ".tif" ∨ ext = ".tiff" ∨ ext = ".bmp"

/-- The content written for a successfully saved image, by extension. -/
def savedKind (ext : String) : FileKind :=
  if ext = ".jpg" ∨ ext = ".jpeg" then FileKind.jpegData
  else if ext = ".png" then FileKind.pngData
  else FileKind.otherData

/-- `imaging.Save`: reject unknown target formats before touching the
file system, then create the output and encode into it (the library
performs no cleanup of a partially written file). -/
def imagingSave (oracle : ImageOracle) (fs : FSState) (output : String) :
    Option GoError × FSState × List IOEvent :=
  let ext := goToLower (goExt output)
  if !imagingSaveSupportedExt ext then
    (some "imaging: unsupported image format", fs, [])
  else if !oracle.createOk output then
    (some ("create " ++ output ++ ": permission denied"), fs, [.createFile output])
  else
    match oracle.imagingEncodeErr with
    | some e => (some e, fsPut fs output FileKind.partialData, [.createFile output])
    | none => (none, fsPut fs output (savedKind ext), [.createFile output])

/-- `ImageEngine.Convert` (internal/engines/image/engine.go:30-87):
decode the input (x/image/webp for `.webp`, `imaging.Open` otherwise),
then encode by output extension.  The `.webp` arm calls `os.Create`
followed by `nativewebp.Encode` and performs **no removal** when the
encode fails; the `.jpeg`/`.jpg`, `.png` and default arms all call
`imaging.Save`. -/
def imageEngineConvert (ctx : Ctx) (t : Nat) (oracle : ImageOracle) (fs : FSState)
    (input output : String) : Option GoError × Nat × FSState × List IOEvent :=
  if ctx t then (some ctxCanceledMsg, t + 1, fs, [])
  else
    let t := t + 1
    let inputExt := goToLower (goExt input)
    match (if inputExt = ".webp" then xWebpDecode fs input else imagingOpen fs input) with
    | (some e, ev) => (some e, t, fs, ev)
    | (none, ev) =>
      if ctx t then (some ctxCanceledMsg, t + 1, fs, ev)
      else
        let t := t + 1
        let outputExt := goToLower (goExt output)
        if outputExt = ".webp" then
          if !oracle.createOk output then
            (some ("create " ++ output ++ ": permission denied"), t, fs,
              ev ++ [.createFile output])
          else
            match oracle.nativeWebpEncodeErr with
            | some e =>
              (some e, t, fsPut fs output FileKind.partialData,
                ev ++ [.createFile output])
            | none =>
              (none, t, fsPut fs output FileKind.webpData,
                ev ++ [.createFile output])
        else
          match imagingSave oracle fs output with
          | (oe, fs', ev2) => (oe, t, fs', ev ++ ev2)

/-- `ImageEngine.Validate` (engine.go:90-111). -/
def imageEngineValidate (ctx : Ctx) (t : Nat) (fs : FSState) (file : String) :
    Option GoError × Nat × List IOEvent :=
  if ctx t then (some ctxCanceledMsg, t + 1, [])
  else
    let t := t + 1
    if goToLower (goExt file) = ".webp" then
      match xWebpDecode fs file with
      | (oe, ev) => (oe, t, ev)
    else
      match imagingOpen fs file with
      | (oe, ev) => (oe, t, ev)

/-- `WebPEncoder.Encode` (internal/engines/image/worker_pool.go:70-103):
create the output, re-check the context (removing the fresh file on
cancellation), encode with chai2010/webp and **remove the partial output
on encode failure**. -/
def webpEncoderEncode (ctx : Ctx) (t : Nat) (oracle : ImageOracle) (fs : FSState)
    (output : String) : Option GoError × Nat × FSState × List IOEvent :=
  if ctx t then (some ctxCanceledMsg, t + 1, fs, [])
  else
    let t := t + 1
    if !oracle.createOk output then
      (some ("create " ++ output ++ ": permission denied"), t, fs, [.createFile output])
    else
      let fs1 := fsPut fs output FileKind.partialData
      if ctx t then
        (some ctxCanceledMsg, t + 1, fsRemove fs1 output,
          [.createFile output, .removeFile output])
      else
        let t := t + 1
        match oracle.chaiWebpEncodeErr with
        | some e =>
          (some e, t, fsRemove fs1 output,
            [.createFile output, .removeFile output])
        | none => (none, t, fsPut fs1 output FileKind.webpData, [.createFile output])

/-- The `ImageEngine` as the `ConverterService` sees it, over a fixed
file system and oracle (engine-internal context uncancelled). -/
def imageEngineM (oracle : ImageOracle) (fs : FSState) : EngineM where
  validate := fun file =>
    match imageEngineValidate ctxNever 0 fs file with
    | (oe, _, ev) => (oe, ev)
  convert := fun input output =>
    match imageEngineConvert ctxNever 0 oracle fs input output with
    | (oe, _, _, ev) => (oe, ev)

/-- A service environment whose only engine is the image engine and whose
file-existence answers come from the modelled file system. -/
def imageServiceEnv (oracle : ImageOracle) (fs : FSState) : ServiceEnv where
  engines := [(FileTypeJPEG, imageEngineM oracle fs),
              (FileTypePNG, imageEngineM oracle fs),
              (FileTypeWEBP, imageEngineM oracle fs)]
  fileExists := fun p => fsHas fs p

end FFC

namespace FFC

/-- An oracle under which every external call succeeds. -/
def oracleOK : ImageOracle :=
  { createOk := fun _ => true, nativeWebpEncodeErr := none,
    imagingEncodeErr := none, chaiWebpEncodeErr := none }

/-- A file system holding one JPEG photograph. -/
def fsPhoto : FSState := [("photo.jpg", FileKind.jpegData)]

theorem detectFileType_of_jpegExt (input : String)
    (hext : goToLower (goExt input) = ".jpg" ∨ goToLower (goExt input) = ".jpeg") :
    detectFileType input = FileTypeJPEG := by
  unfold detectFileType
  rcases hext with h | h <;> rw [h] <;> decide

theorem imagingOpen_jpeg (fs : FSState) (input : String)
    (hcontent : fs.lookup input = some FileKind.jpegData) :
    imagingOpen fs input = (none, [.openFile input, .decodeImage input]) := by
  unfold imagingOpen
  rw [hcontent]
  simp

theorem imageEngineValidate_jpeg (fs : FSState) (input : String)
    (hext : goToLower (goExt input) = ".jpg" ∨ goToLower (goExt input) = ".jpeg")
    (hcontent : fs.lookup input = some FileKind.jpegData) :
    imageEngineValidate ctxNever 0 fs input =
      (none, 1, [.openFile input, .decodeImage input]) := by
  unfold imageEngineValidate
  have hne : ¬ (goToLower (goExt input) = ".webp") := by
    rcases hext with h | h <;> rw [h] <;> decide
  simp only [ctxNever, Bool.false_eq_true, if_false, hne]
  rw [imagingOpen_jpeg fs input hcontent]

theorem imagingSave_pdf (oracle : ImageOracle) (fs : FSState) (output : String)
    (htarget : goToLower (goExt output) = ".pdf") :
    imagingSave oracle fs output =
      (some "imaging: unsupported image format", fs, []) := by
  unfold imagingSave
  rw [htarget]
  have h : imagingSaveSupportedExt ".pdf" = false := by decide
  simp [h]

theorem imageEngineConvert_jpeg_to_pdf (oracle : ImageOracle) (fs : FSState)
    (input target : String)
    (hext : goToLower (goExt input) = ".jpg" ∨ goToLower (goExt input) = ".jpeg")
    (hcontent : fs.lookup input = some FileKind.jpegData)
    (htarget : goToLower (goExt target) = ".pdf") :
    imageEngineConvert ctxNever 0 oracle fs input target =
      (some "imaging: unsupported image format", 2, fs,
        [.openFile input, .decodeImage input]) := by
  unfold imageEngineConvert
  have hne : ¬ (goToLower (goExt input) = ".webp") := by
    rcases hext with h | h <;> rw [h] <;> decide
  have hne2 : ¬ (goToLower (goExt target) = ".webp") := by
    rw [htarget]; decide
  simp only [ctxNever, Bool.false_eq_true, if_false, hne, hne2]
  rw [imagingOpen_jpeg fs input hcontent]
  dsimp only
  rw [imagingSave_pdf oracle fs target htarget]
  simp

end FFC

namespace FFC

theorem validateInput_jpeg (oracle : ImageOracle) (fs : FSState) (input : String) (t : Nat)
    (hext : goToLower (goExt input) = ".jpg" ∨ goToLower (goExt input) = ".jpeg")
    (hcontent : fs.lookup input = some FileKind.jpegData) :
    validateInput ctxNever t (imageServiceEnv oracle fs) input =
      ({ valid := true, message := "Input file is valid", error := none },
        t + 1, [.statFile input]) := by
  unfold validateInput
  simp only [ctxNever, Bool.false_eq_true, if_false]
  have hfe : (imageServiceEnv oracle fs).fileExists input = true := by
    simp [imageServiceEnv, fsHas, hcontent]
  rw [hfe]
  rw [detectFileType_of_jpegExt input hext]
  have hsel : selectEngine (imageServiceEnv oracle fs) FileTypeJPEG =
      some (imageEngineM oracle fs) := by
    simp [selectEngine, imageServiceEnv, List.lookup, FileTypeJPEG]
  rw [hsel]
  simp [FileTypeJPEG]

/-- **C3, counterexample.**  A JPEG input with target `pdf` — a pair no
engine path supports — does not fail with an `UnsupportedConversion`
error before any file I/O: the service opens and decodes the input file
(twice: engine validation and conversion), and the conversion fails only
at the encode step with the imaging library's unsupported-format error.
No `UnsupportedConversion` error kind exists anywhere in the code. -/
theorem jpeg_to_pdf_reads_input_before_failing :
    ((serviceConvert ctxNever 0 (imageServiceEnv oracleOK fsPhoto)
        "photo.jpg" "photo.pdf").1.success = false) ∧
    ((serviceConvert ctxNever 0 (imageServiceEnv oracleOK fsPhoto)
        "photo.jpg" "photo.pdf").1.error = some "imaging: unsupported image format") ∧
    (IOEvent.openFile "photo.jpg" ∈
      (serviceConvert ctxNever 0 (imageServiceEnv oracleOK fsPhoto)
        "photo.jpg" "photo.pdf").2.2) := by
  refine ⟨?_, ?_, ?_⟩ <;> decide

/-- **C3 (amended).**  For every conversion request whose
`(inputTag, outputTag)` pair has no supported engine path (a JPEG input
with `pdf` target), the conversion is *not* rejected up front: the input
file is opened and decoded (file I/O), and the request fails at the
encode step with the imaging library's `unsupported image format` error
— there is no `UnsupportedConversion` pre-check in the code. -/
theorem unsupported_pair_fails_at_encode (oracle : ImageOracle) (fs : FSState)
    (input target : String)
    (hext : goToLower (goExt input) = ".jpg" ∨ goToLower (goExt input) = ".jpeg")
    (hcontent : fs.lookup input = some FileKind.jpegData)
    (htarget : goToLower (goExt target) = ".pdf") :
    ((serviceConvert ctxNever 0 (imageServiceEnv oracle fs) input target).1.success = false) ∧
    ((serviceConvert ctxNever 0 (imageServiceEnv oracle fs) input target).1.error =
      some "imaging: unsupported image format") ∧
    (IOEvent.openFile input ∈
      (serviceConvert ctxNever 0 (imageServiceEnv oracle fs) input target).2.2) := by
  unfold serviceConvert
  simp only [ctxNever, Bool.false_eq_true, if_false]
  rw [validateInput_jpeg oracle fs input 1 hext hcontent]
  dsimp only
  rw [detectFileType_of_jpegExt input hext]
  have hsel : selectEngine (imageServiceEnv oracle fs) FileTypeJPEG =
      some (imageEngineM oracle fs) := by
    simp [selectEngine, imageServiceEnv, List.lookup, FileTypeJPEG]
  rw [hsel]
  have hval : (imageEngineM oracle fs).validate input =
      (none, [.openFile input, .decodeImage input]) := by
    rw [imageEngineM]
    dsimp only
    rw [imageEngineValidate_jpeg fs input hext hcontent]
  have hconv : (imageEngineM oracle fs).convert input target =
      (some "imaging: unsupported image format",
        [.openFile input, .decodeImage input]) := by
    rw [imageEngineM]
    dsimp only
    rw [imageEngineConvert_jpeg_to_pdf oracle fs input target hext hcontent htarget]
  rw [if_neg (by decide : ¬ ((!true) = true)), if_neg (by decide : ¬ (FileTypeJPEG = ""))]
  dsimp only
  rw [hval]
  dsimp only
  rw [hconv]
  simp [failResult]

/-- **C3, witness.** -/
theorem unsupported_pair_fails_at_encode_witness :
    ((serviceConvert ctxNever 0 (imageServiceEnv oracleOK fsPhoto)
        "photo.jpg" "photo.pdf").1.error = some "imaging: unsupported image format") :=
  (unsupported_pair_fails_at_encode oracleOK fsPhoto "photo.jpg" "photo.pdf"
    (Or.inl (by decide)) (by decide) (by decide)).2.1

end FFC

namespace FFC

theorem fsHas_fsPut (fs : FSState) (p : String) (k : FileKind) :
    fsHas (fsPut fs p k) p = true := by
  simp [fsHas, fsPut, List.lookup]

theorem lookup_fsRemove (fs : FSState) (p : String) :
    (fsRemove fs p).lookup p = none := by
  unfold fsRemove
  induction fs with
  | nil => rfl
  | cons e rest ih =>
    rw [List.filter_cons]
    by_cases h : e.1 = p
    · have hb : (e.1 != p) = false := by simp [h]
      rw [hb]
      exact ih
    · have hb : (e.1 != p) = true := by simp [h]
      rw [hb]
      have hpe : (p == e.1) = false := by
        simp [bne_iff_ne, Ne.symm h]
      simp only [List.lookup, hpe]
      exact ih

theorem fsHas_fsRemove (fs : FSState) (p : String) :
    fsHas (fsRemove fs p) p = false := by
  simp [fsHas, lookup_fsRemove]

theorem imagingOpen_png (fs : FSState) (input : String)
    (hcontent : fs.lookup input = some FileKind.pngData) :
    imagingOpen fs input = (none, [.openFile input, .decodeImage input]) := by
  unfold imagingOpen
  rw [hcontent]
  simp

/-- A file system holding one PNG input. -/
def fsPng : FSState := [("in.png", FileKind.pngData)]

/-- An oracle whose WebP encoders fail (after file creation succeeds). -/
def oracleWebpFail : ImageOracle :=
  { createOk := fun _ => true, nativeWebpEncodeErr := some "webp encode failed",
    imagingEncodeErr := none, chaiWebpEncodeErr := some "webp encode failed" }

/-- **C5, counterexample.**  Converting a PNG to WebP through
`ImageEngine.Convert` when `nativewebp.Encode` fails after the output
file was created: `Convert` returns an error but the partial output file
is still present at the output path — it is not deleted. -/
theorem imageConvert_leaves_partial_webp :
    ((imageEngineConvert ctxNever 0 oracleWebpFail fsPng "in.png" "out.webp").1 =
      some "webp encode failed") ∧
    (fsHas (imageEngineConvert ctxNever 0 oracleWebpFail fsPng "in.png" "out.webp").2.2.1
      "out.webp" = true) := by
  refine ⟨?_, ?_⟩ <;> decide

/-- **C5 (amended).**  When the WebP encode step fails after the output
file was created, `ImageEngine.Convert` returns the error but leaves the
partial output file in place (engine.go:69-76 has no removal); only the
standalone `WebPEncoder.Encode` (worker_pool.go:96-99), which
`ImageEngine.Convert` does not use, deletes the partial output on encode
failure, so that no file remains at its output path. -/
theorem webp_encode_failure_partial_output :
    (∀ (fs : FSState) (oracle : ImageOracle) (input output : String) (e : GoError),
      goToLower (goExt input) = ".png" →
      fs.lookup input = some FileKind.pngData →
      goToLower (goExt output) = ".webp" →
      oracle.createOk output = true →
      oracle.nativeWebpEncodeErr = some e →
      ((imageEngineConvert ctxNever 0 oracle fs input output).1 = some e ∧
        fsHas (imageEngineConvert ctxNever 0 oracle fs input output).2.2.1 output = true)) ∧
    (∀ (fs : FSState) (oracle : ImageOracle) (output : String) (e : GoError),
      oracle.createOk output = true →
      oracle.chaiWebpEncodeErr = some e →
      ((webpEncoderEncode ctxNever 0 oracle fs output).1 = some e ∧
        fsHas (webpEncoderEncode ctxNever 0 oracle fs output).2.2.1 output = false)) := by
  constructor
  · intro fs oracle input output e hin hcontent hout hcreate henc
    have hne : ¬ (goToLower (goExt input) = ".webp") := by rw [hin]; decide
    unfold imageEngineConvert
    simp only [ctxNever, Bool.false_eq_true, if_false, hne]
    rw [imagingOpen_png fs input hcontent]
    dsimp only
    rw [hout, if_pos rfl, hcreate, henc]
    simp [fsHas_fsPut]
  · intro fs oracle output e hcreate henc
    unfold webpEncoderEncode
    simp only [ctxNever, Bool.false_eq_true, if_false]
    rw [hcreate, henc]
    simp [fsHas_fsRemove]

/-- **C5, witness.** -/
theorem webp_encode_failure_partial_output_witness :
    ((imageEngineConvert ctxNever 0 oracleWebpFail fsPng "in.png" "out.webp").1 =
        some "webp encode failed" ∧
      fsHas (imageEngineConvert ctxNever 0 oracleWebpFail fsPng "in.png" "out.webp").2.2.1
        "out.webp" = true) ∧
    ((webpEncoderEncode ctxNever 0 oracleWebpFail fsPng "out.webp").1 =
        some "webp encode failed" ∧
      fsHas (webpEncoderEncode ctxNever 0 oracleWebpFail fsPng "out.webp").2.2.1
        "out.webp" = false) :=
  ⟨webp_encode_failure_partial_output.1 fsPng oracleWebpFail "in.png" "out.webp"
      "webp encode failed" (by decide) (by decide) (by decide) (by decide) (by decide),
    webp_encode_failure_partial_output.2 fsPng oracleWebpFail "out.webp"
      "webp encode failed" (by decide) (by decide)⟩

end FFC

namespace FFC

/-! ## `internal/engines/image/worker_pool.go`: the worker pool

The pool is `workers` goroutines ranging over one buffered Go channel of
capacity `2×workers` (worker_pool.go:20).  The model keeps the tasks
currently buffered in the channel, the tasks already executed by workers,
and whether `Close` has been called; Go channel semantics give the
behaviour of `Submit` (send) and `Close` (close + drain + `wg.Wait`). -/

structure WorkerPoolState where
  workers : Nat
  /-- identifiers of tasks sitting in the channel buffer. -/
  queued : List Nat
  /-- identifiers of tasks whose callbacks have run to completion. -/
  executed : List Nat
  closed : Bool
  deriving DecidableEq, Repr

/-- `NewWorkerPool` (worker_pool.go:16-30), `n = runtime.NumCPU()`. -/
def newWorkerPool (n : Nat) : WorkerPoolState :=
  { workers := n, queued := [], executed := [], closed := false }

/-- The channel buffer capacity: `make(chan func(), workers*2)`. -/
def queueCapacity (p : WorkerPoolState) : Nat := 2 * p.workers

/-- The behaviour of one `Submit` call (worker_pool.go:40-42 is a bare
channel send `p.tasks <- task`): by Go semantics a send on a closed
channel panics, a send on a full buffer blocks until a worker receives,
and otherwise the send completes without blocking.  `Submit` returns
nothing — there is no error result in its signature. -/
inductive SubmitOutcome where
  | accepted
  | blocksUntilSpace
  | panics
  deriving DecidableEq, Repr

def submitOutcome (p : WorkerPoolState) : SubmitOutcome :=
  if p.closed then .panics
  else if p.queued.length < queueCapacity p then .accepted
  else .blocksUntilSpace

/-- State change of a completed (non-panicking) `Submit`. -/
def submit (p : WorkerPoolState) (id : Nat) : WorkerPoolState :=
  if p.closed then p
  else { p with queued := p.queued ++ [id] }

/-- A worker receiving the next buffered task and running its callback to
completion (worker_pool.go:32-37). -/
def runTask (p : WorkerPoolState) : WorkerPoolState :=
  { p with queued := p.queued.drop 1, executed := p.executed ++ p.queued.take 1 }

/-- `Close` (worker_pool.go:45-48): `close(p.tasks)` lets every worker
drain the remaining buffered tasks and leave its `range` loop, and
`p.wg.Wait()` returns only once all workers have exited — i.e. after
every still-buffered task callback has returned. -/
def closePool (p : WorkerPoolState) : WorkerPoolState :=
  { p with queued := [], executed := p.executed ++ p.queued, closed := true }

/-- Pool histories: interleavings of submissions and task completions. -/
inductive PoolOp where
  | submit (id : Nat)
  | runTask
  deriving DecidableEq, Repr

def applyOp (p : WorkerPoolState) : PoolOp → WorkerPoolState
  | .submit id => submit p id
  | .runTask => runTask p

def applyOps (p : WorkerPoolState) (ops : List PoolOp) : WorkerPoolState :=
  ops.foldl applyOp p

def submittedIds (ops : List PoolOp) : List Nat :=
  ops.filterMap (fun op => match op with | .submit id => some id | .runTask => none)

theorem applyOps_closed (ops : List PoolOp) :
    ∀ p : WorkerPoolState, (applyOps p ops).closed = p.closed := by
  induction ops with
  | nil => intro p; rfl
  | cons op rest ih =>
    intro p
    rw [applyOps, List.foldl_cons, ← applyOps, ih]
    cases op with
    | submit id =>
      simp only [applyOp, submit]
      split <;> rfl
    | runTask => rfl

/-- On an open pool, executed-then-buffered tasks are exactly the
submitted ones, in submission order. -/
theorem applyOps_executed_queued (ops : List PoolOp) :
    ∀ p : WorkerPoolState, p.closed = false →
      (applyOps p ops).executed ++ (applyOps p ops).queued =
        p.executed ++ p.queued ++ submittedIds ops := by
  induction ops with
  | nil => intro p _; simp [applyOps, submittedIds]
  | cons op rest ih =>
    intro p hp
    rw [applyOps, List.foldl_cons, ← applyOps]
    cases op with
    | submit id =>
      have hcl : (submit p id).closed = false := by simp [submit, hp]
      rw [show applyOp p (PoolOp.submit id) = submit p id from rfl, ih (submit p id) hcl]
      simp [submit, hp, submittedIds, List.filterMap_cons]
    | runTask =>
      have hcl : (runTask p).closed = false := by simp [runTask, hp]
      rw [show applyOp p PoolOp.runTask = runTask p from rfl, ih (runTask p) hcl]
      simp only [runTask, submittedIds, List.filterMap_cons]
      rw [List.append_assoc p.executed, List.take_append_drop]

end FFC

namespace FFC

/-- **C4, counterexample.**  Submitting to a pool after `Close` is *not*
refused with an error result: `Submit` (worker_pool.go:40-42) is a bare
send on the closed channel, which panics — a crash.  `Submit`'s
signature has no error return at all. -/
theorem submit_after_close_panics :
    submitOutcome (closePool (newWorkerPool 1)) = SubmitOutcome.panics ∧
    SubmitOutcome.panics ≠ SubmitOutcome.accepted := by
  decide

/-- **C4 (amended).**  The worker pool's contract, as implemented:
`Submit` does not block while fewer than `2×workers` tasks are buffered
and blocks thereafter; submitting to a pool after `Close` **panics** (a
send on a closed channel — a crash, not an error result); and `Close`
returns only after every previously submitted task callback has returned
(for every interleaving of submissions and worker completions, the tasks
executed when `Close` returns are exactly the submitted ones, in
submission order). -/
theorem workerPool_contract :
    (∀ p : WorkerPoolState, p.closed = false → p.queued.length < 2 * p.workers →
      submitOutcome p = SubmitOutcome.accepted) ∧
    (∀ p : WorkerPoolState, p.closed = false → 2 * p.workers ≤ p.queued.length →
      submitOutcome p = SubmitOutcome.blocksUntilSpace) ∧
    (∀ p : WorkerPoolState, p.closed = true → submitOutcome p = SubmitOutcome.panics) ∧
    (∀ (n : Nat) (ops : List PoolOp),
      (closePool (applyOps (newWorkerPool n) ops)).executed = submittedIds ops) := by
  refine ⟨?_, ?_, ?_, ?_⟩
  · intro p hcl hlen
    simp [submitOutcome, hcl, queueCapacity, hlen]
  · intro p hcl hlen
    simp [submitOutcome, hcl, queueCapacity, Nat.not_lt.mpr hlen]
  · intro p hcl
    simp [submitOutcome, hcl]
  · intro n ops
    have h := applyOps_executed_queued ops (newWorkerPool n) rfl
    simp only [newWorkerPool] at h
    simp only [closePool]
    simpa using h

/-- **C4, witness**: a one-worker pool; capacity behaviour at 1 and 2
buffered tasks, the panic on a closed pool, and the drain of a
three-submission history interleaved with one completion. -/
theorem workerPool_contract_witness :
    (submitOutcome { workers := 1, queued := [7], executed := [], closed := false } =
      SubmitOutcome.accepted) ∧
    (submitOutcome { workers := 1, queued := [7, 8], executed := [], closed := false } =
      SubmitOutcome.blocksUntilSpace) ∧
    (submitOutcome { workers := 1, queued := [], executed := [], closed := true } =
      SubmitOutcome.panics) ∧
    ((closePool (applyOps (newWorkerPool 1)
        [PoolOp.submit 3, PoolOp.submit 1, PoolOp.runTask, PoolOp.submit 2])).executed =
      [3, 1, 2]) := by
  refine ⟨?_, ?_, ?_, ?_⟩
  · exact workerPool_contract.1 _ rfl (by decide)
  · exact workerPool_contract.2.1 _ rfl (by decide)
  · exact workerPool_contract.2.2.1 _ rfl
  · rw [workerPool_contract.2.2.2 1
      [PoolOp.submit 3, PoolOp.submit 1, PoolOp.runTask, PoolOp.submit 2]]
    decide

/-! ## `internal/adapters/gui/app.go`: temporary-file deletion -/

/-- Whether path `p` lies inside directory `d` (strictly: under `d/`). -/
def liesInside (d p : String) : Bool :=
  goHasPrefix p (d ++ "/")

/-- `App.DeleteTempFile` (app.go:337-345): refuse unless the path has
`<os temp dir>/file-format-converter` as a **string prefix**, otherwise
call `os.Remove` on it.  Returns the Go error and whether the removal was
performed. -/
def deleteTempFile (osTempDir filePath : String) : Option GoError × Bool :=
  let tempDir := goJoin osTempDir "file-format-converter"
  if !goHasPrefix filePath tempDir then
    (some "file is not in temp directory, refusing to delete", false)
  else
    (none, true)

/-- **C9.**  `DeleteTempFile` guards with `strings.HasPrefix` on the raw
path string, not with a path-component check, contradicting its own
safety comment ("Only delete files in temp directory for safety"): the
path `/tmp/file-format-converter-evil/x` does **not** lie inside
`/tmp/file-format-converter`, yet it passes the prefix check and is
deleted rather than refused. -/
theorem deleteTempFile_prefix_bug :
    (liesInside "/tmp/file-format-converter" "/tmp/file-format-converter-evil/x" = false) ∧
    (deleteTempFile "/tmp" "/tmp/file-format-converter-evil/x" = (none, true)) ∧
    (deleteTempFile "/tmp" "/home/user/doc.txt" =
      (some "file is not in temp directory, refusing to delete", false)) := by
  refine ⟨?_, ?_, ?_⟩ <;> decide

end FFC

namespace FFC

/-- **C10, witness**: a conversion that succeeds (trivial engine, target
`out.webp`) — the theorem's implications are discharged at it. -/
theorem convert_result_invariant_witness :
    ((serviceConvertR ctxNever 0 envOneEngine "a.png" "out.webp").outputPath = "out.webp") ∧
    ((serviceConvertR ctxNever 0 envOneEngine "a.png" "out.webp").error = none) := by
  have h := convert_result_invariant ctxNever 0 envOneEngine "a.png" "out.webp"
  exact ⟨h.2.1 (by decide), h.1.mp (by decide)⟩

end FFC

namespace FFC

/-! ## `internal/engines/spreadsheet`: cell model and HTML renderer

From parser.go (`CellData`, `CellStyle`) and the full-featured renderer of
`src/unnamed/part_014` (lines 69-160).  Font sizes are `float64` in Go;
they are modelled at whole-point granularity (no claim inspects the
numeric text, only whether the branch fires). -/

/-- `spreadsheet.CellStyle` (parser.go:42-50). -/
structure CellStyleS where
  bold : Bool := false
  italic : Bool := false
  fontSize : Nat := 0
  fontColor : String := ""
  backgroundColor : String := ""
  alignment : String := ""
  borderStyle : String := ""
  deriving DecidableEq, Repr

/-- `spreadsheet.CellData` (parser.go:30-39).  `MergeAcross`/`MergeDown`
are `colSpan-1`/`rowSpan-1` and hence non-negative. -/
structure CellDataS where
  value : String := ""
  row : Nat := 0
  col : Nat := 0
  style : CellStyleS := {}
  isMerged : Bool := false
  mergeAcross : Nat := 0
  mergeDown : Nat := 0
  isMergeCovered : Bool := false
  deriving DecidableEq, Repr

/-- `html.EscapeString`: Go escapes exactly `&`, `'`, `<`, `>` and the
double quote. -/
def escapeChar (c : Char) : String :=
  if c = '&' then "&amp;"
  else if c = Char.ofNat 39 then "&#39;"
  else if c = '<' then "&lt;"
  else if c = '>' then "&gt;"
  else if c = Char.ofNat 34 then "&#34;"
  else String.mk [c]

def htmlEscapeString (s : String) : String :=
  String.join (s.data.map escapeChar)

/-- The inline-style string built by `renderCell` (part_014:131-153). -/
def cellStyles (cell : CellDataS) : String :=
  (if cell.style.bold then "font-weight: bold; " else "") ++
  (if cell.style.italic then "font-style: italic; " else "") ++
  (if cell.style.fontSize > 0 ∧ cell.style.fontSize ≠ 11 then
    "font-size: " ++ toString cell.style.fontSize ++ "pt; " else "") ++
  (if cell.style.fontColor ≠ "" then "color: #" ++ cell.style.fontColor ++ "; " else "") ++
  (if cell.style.backgroundColor ≠ "" then
    "background-color: #" ++ cell.style.backgroundColor ++ "; " else "") ++
  (if cell.style.alignment ≠ "" then "text-align: " ++ cell.style.alignment ++ "; " else "") ++
  (if cell.style.borderStyle ≠ "" then
    "border: 1px " ++ cell.style.borderStyle ++ " #000; " else "")

/-- The ` style="…"` attribute appended when any style was built
(part_014:155-157, `styles.Len() > 0`). -/
def styleAttr (cell : CellDataS) : String :=
  if cellStyles cell ≠ "" then " style=\"" ++ cellStyles cell ++ "\"" else ""

/-- `HTMLRenderer.renderCell` (part_014:116-160): merge attributes
(colspan/rowspan only for a merged cell and only for positive spans),
then the style attribute, then the escaped value. -/
def renderCell (cell : CellDataS) : String :=
  let attrs :=
    (if cell.isMerged then
      (if cell.mergeAcross > 0 then
        " colspan=\"" ++ toString (cell.mergeAcross + 1) ++ "\"" else "") ++
      (if cell.mergeDown > 0 then
        " rowspan=\"" ++ toString (cell.mergeDown + 1) ++ "\"" else "")
    else "")
  let attrs := attrs ++ styleAttr cell
  "<td" ++ attrs ++ ">" ++ htmlEscapeString cell.value ++ "</td>"

/-- One iteration of the cell loop of `renderSheet` (part_014:96-108):
a position inside the row emits nothing for a covered cell (`continue`)
and `renderCell` otherwise; a position at or beyond the row's length
emits the empty-cell padding. -/
def cellEmit (row : List CellDataS) (colIdx : Nat) : String :=
  match row.get? colIdx with
  | some cell => if cell.isMergeCovered then "" else renderCell cell
  | none => "<td></td>"

/-- The cell loop of `renderSheet` for one row: `colIdx` iterates over
`0 ≤ colIdx < maxColumns`. -/
def renderRowCells (maxColumns : Nat) (row : List CellDataS) : String :=
  String.join ((List.range maxColumns).map (cellEmit row))

/-- The emission rules exactly as the specification words them (§4.7):
a `Covered` cell is skipped entirely (no `<td>`); an `Anchor` cell emits
`colspan=across+1` exactly when `across>0` and `rowspan=down+1` exactly
when `down>0`; every position at or beyond the row's actual length is
padded with an empty `<td></td>`. -/
def specCellEmit (row : List CellDataS) (colIdx : Nat) : String :=
  match row.get? colIdx with
  | none => "<td></td>"
  | some cell =>
    if cell.isMergeCovered then ""
    else
      "<td" ++
        (if cell.isMerged ∧ cell.mergeAcross > 0 then
          " colspan=\"" ++ toString (cell.mergeAcross + 1) ++ "\"" else "") ++
        (if cell.isMerged ∧ cell.mergeDown > 0 then
          " rowspan=\"" ++ toString (cell.mergeDown + 1) ++ "\"" else "") ++
        styleAttr cell ++ ">" ++ htmlEscapeString cell.value ++ "</td>"

/-- **C7.**  For every sheet row, the renderer's cell loop over positions
`0..maxColumns` agrees position-by-position with the specification's
emission rules: no `<td>` for a covered cell, `colspan`/`rowspan`
attributes exactly for positive spans of an anchor, and empty `<td></td>`
padding for every position at or beyond the row's actual length. -/
theorem renderSheet_cell_emission (maxColumns : Nat) (row : List CellDataS) :
    (renderRowCells maxColumns row =
      String.join ((List.range maxColumns).map (specCellEmit row))) ∧
    (∀ colIdx : Nat, cellEmit row colIdx = specCellEmit row colIdx) := by
  have hpt : ∀ colIdx : Nat, cellEmit row colIdx = specCellEmit row colIdx := by
    intro colIdx
    unfold cellEmit specCellEmit renderCell
    cases row.get? colIdx with
    | none => rfl
    | some cell =>
      dsimp only
      by_cases hcov : cell.isMergeCovered = true
      · simp [hcov]
      · by_cases hm : cell.isMerged = true
        · simp [hcov, hm, String.append_assoc]
        · simp [hcov, hm, String.append_assoc]
  exact ⟨by unfold renderRowCells; rw [List.map_congr_left (fun c _ => hpt c)], hpt⟩

end FFC


namespace FFC

/-! ## `ExcelParser.buildMergeMap` (parser.go:206-241)

Cell references are modelled by their coordinates: the Go code converts
`A1`-style names to 1-based `(col, row)` pairs with
`excelize.CellNameToCoordinates` and back with `CoordinatesToCellName`
(a bijection between names and pairs).  The Go maps become an
association list with Go-map overwrite semantics (`startCells`) and a
finite set (`coveredCells`). -/

/-- A merged range as excelize reports it, after coordinate conversion
of its two axes. -/
structure MergeCellRange where
  startCol : Nat
  startRow : Nat
  endCol : Nat
  endRow : Nat
  deriving DecidableEq, Repr

/-- `spreadsheet.mergeInfo` (parser.go:191-197): spans are
`end - start + 1` (the library reports `start ≤ end`, so `Nat`
subtraction agrees with Go's `int`); the cell-value field plays no role
in any claim. -/
structure MergeInfo where
  colSpan : Nat
  rowSpan : Nat
  deriving DecidableEq, Repr

/-- The top-left cell of a range — the one recorded in `startCells`. -/
def anchorOf (mc : MergeCellRange) : Nat × Nat := (mc.startCol, mc.startRow)

/-- The rectangle of cells the range spans (the two nested loops of
parser.go:230-237 enumerate exactly these). -/
def rectOf (mc : MergeCellRange) : Finset (Nat × Nat) :=
  Finset.Icc mc.startCol mc.endCol ×ˢ Finset.Icc mc.startRow mc.endRow

/-- Go map assignment `m[k] = v`: overwrite the entry of an existing key
(the keys of a Go map are unique), append a fresh one. -/
def goMapInsert (k : Nat × Nat) (v : MergeInfo) :
    List ((Nat × Nat) × MergeInfo) → List ((Nat × Nat) × MergeInfo)
  | [] => [(k, v)]
  | e :: rest => if e.1 = k then (k, v) :: rest else e :: goMapInsert k v rest

/-- `spreadsheet.mergeMapResult` (parser.go:200-203). -/
structure MergeMapResult where
  startCells : List ((Nat × Nat) × MergeInfo)
  coveredCells : Finset (Nat × Nat)

/-- One iteration of the range loop (parser.go:212-238): record the
merge info at the start cell and mark every other cell of the rectangle
as covered. -/
def buildMergeMapStep (acc : MergeMapResult) (mc : MergeCellRange) : MergeMapResult :=
  { startCells :=
      goMapInsert (anchorOf mc)
        { colSpan := mc.endCol - mc.startCol + 1, rowSpan := mc.endRow - mc.startRow + 1 }
        acc.startCells,
    coveredCells := acc.coveredCells ∪ ((rectOf mc).erase (anchorOf mc)) }

/-- `ExcelParser.buildMergeMap` (parser.go:206-241). -/
def buildMergeMap (mcs : List MergeCellRange) : MergeMapResult :=
  mcs.foldl buildMergeMapStep { startCells := [], coveredCells := ∅ }

/-- A range as Excel itself stores it: start at or before end. -/
def RangeWF (mc : MergeCellRange) : Prop :=
  mc.startCol ≤ mc.endCol ∧ mc.startRow ≤ mc.endRow

theorem anchor_mem_rect (mc : MergeCellRange) (h : RangeWF mc) :
    anchorOf mc ∈ rectOf mc := by
  rcases h with ⟨h1, h2⟩
  rw [anchorOf, rectOf, Finset.mem_product]
  constructor <;> rw [Finset.mem_Icc] <;> omega

/-- `m[k] = v` makes a later read of `k` return `v`. -/
theorem lookup_goMapInsert_self (k : Nat × Nat) (v : MergeInfo) :
    ∀ m : List ((Nat × Nat) × MergeInfo), (goMapInsert k v m).lookup k = some v := by
  intro m
  induction m with
  | nil => simp [goMapInsert, List.lookup]
  | cons e rest ih =>
    by_cases he : e.1 = k
    · simp [goMapInsert, he, List.lookup]
    · have hke : (k == e.1) = false := by simp [Ne.symm he]
      simp only [goMapInsert, if_neg he, List.lookup, hke]
      exact ih

/-- `m[k] = v` leaves every other key unchanged. -/
theorem lookup_goMapInsert_ne (k k' : Nat × Nat) (v : MergeInfo)
    (h : k' ≠ k) :
    ∀ m : List ((Nat × Nat) × MergeInfo),
      (goMapInsert k v m).lookup k' = m.lookup k' := by
  intro m
  have hk : (k' == k) = false := by simp [h]
  induction m with
  | nil => simp [goMapInsert, List.lookup, hk]
  | cons e rest ih =>
    by_cases he : e.1 = k
    · have h2 : (k' == e.1) = false := by rw [he]; exact hk
      simp only [goMapInsert, if_pos he, List.lookup, hk, h2]
    · simp only [goMapInsert, if_neg he, List.lookup]
      cases hke : (k' == e.1) <;> simp [ih]

theorem lookup_goMapInsert_isSome (k k' : Nat × Nat) (v : MergeInfo)
    (m : List ((Nat × Nat) × MergeInfo)) :
    ((goMapInsert k v m).lookup k').isSome = true ↔
      k' = k ∨ (m.lookup k').isSome = true := by
  by_cases h : k' = k
  · subst h
    rw [lookup_goMapInsert_self]
    simp
  · rw [lookup_goMapInsert_ne k k' v h]
    simp [h]

theorem length_goMapInsert (k : Nat × Nat) (v : MergeInfo) :
    ∀ m : List ((Nat × Nat) × MergeInfo),
      (goMapInsert k v m).length =
        if (m.lookup k).isSome then m.length else m.length + 1 := by
  intro m
  induction m with
  | nil => simp [goMapInsert, List.lookup]
  | cons e rest ih =>
    by_cases he : e.1 = k
    · have hke : (k == e.1) = true := by simp [he]
      simp [goMapInsert, he, List.lookup, hke]
    · have hke : (k == e.1) = false := by simp [Ne.symm he]
      simp only [goMapInsert, if_neg he, List.lookup, hke, List.length_cons, ih]
      split <;> rfl

end FFC

namespace FFC

/-- Membership in the covered set after the range loop: a cell is covered
iff some processed range contains it other than as its anchor. -/
theorem mem_covered_foldl (c : Nat × Nat) :
    ∀ (mcs : List MergeCellRange) (acc : MergeMapResult),
      (c ∈ (mcs.foldl buildMergeMapStep acc).coveredCells ↔
        c ∈ acc.coveredCells ∨ ∃ mc ∈ mcs, c ∈ rectOf mc ∧ c ≠ anchorOf mc) := by
  intro mcs
  induction mcs with
  | nil => intro acc; simp
  | cons mc rest ih =>
    intro acc
    rw [List.foldl_cons, ih]
    simp only [buildMergeMapStep, Finset.mem_union, Finset.mem_erase, List.mem_cons]
    constructor
    · rintro ((hacc | ⟨hne, hmem⟩) | ⟨mc', hmc', hmem', hne'⟩)
      · exact Or.inl hacc
      · exact Or.inr ⟨mc, Or.inl rfl, hmem, hne⟩
      · exact Or.inr ⟨mc', Or.inr hmc', hmem', hne'⟩
    · rintro (hacc | ⟨mc', hmc' | hmc', hmem', hne'⟩)
      · exact Or.inl (Or.inl hacc)
      · subst hmc'
        exact Or.inl (Or.inr ⟨hne', hmem'⟩)
      · exact Or.inr ⟨mc', hmc', hmem', hne'⟩

/-- A key is an anchor after the range loop iff it was one before or is
the anchor of some processed range. -/
theorem anchor_isSome_foldl (k : Nat × Nat) :
    ∀ (mcs : List MergeCellRange) (acc : MergeMapResult),
      (((mcs.foldl buildMergeMapStep acc).startCells.lookup k).isSome = true ↔
        (acc.startCells.lookup k).isSome = true ∨ ∃ mc ∈ mcs, anchorOf mc = k) := by
  intro mcs
  induction mcs with
  | nil => intro acc; simp
  | cons mc rest ih =>
    intro acc
    rw [List.foldl_cons, ih]
    simp only [buildMergeMapStep, lookup_goMapInsert_isSome, List.mem_cons]
    constructor
    · rintro ((hk | hacc) | ⟨mc', hmc', hanc⟩)
      · exact Or.inr ⟨mc, Or.inl rfl, hk.symm⟩
      · exact Or.inl hacc
      · exact Or.inr ⟨mc', Or.inr hmc', hanc⟩
    · rintro (hacc | ⟨mc', hmc' | hmc', hanc⟩)
      · exact Or.inl (Or.inr hacc)
      · subst hmc'
        exact Or.inl (Or.inl hanc.symm)
      · exact Or.inr ⟨mc', hmc', hanc⟩

/-- When the processed anchors are fresh and pairwise distinct, each range
adds exactly one entry to `startCells`. -/
theorem length_startCells_foldl :
    ∀ (mcs : List MergeCellRange) (acc : MergeMapResult),
      (∀ mc ∈ mcs, (acc.startCells.lookup (anchorOf mc)).isSome = false) →
      mcs.Pairwise (fun a b => anchorOf a ≠ anchorOf b) →
      (mcs.foldl buildMergeMapStep acc).startCells.length =
        acc.startCells.length + mcs.length := by
  intro mcs
  induction mcs with
  | nil => intro acc _ _; simp
  | cons mc rest ih =>
    intro acc hfresh hpw
    rcases List.pairwise_cons.mp hpw with ⟨hhead, htail⟩
    rw [List.foldl_cons]
    have hrestfresh : ∀ mc' ∈ rest,
        ((buildMergeMapStep acc mc).startCells.lookup (anchorOf mc')).isSome = false := by
      intro mc' hmc'
      have hne : anchorOf mc' ≠ anchorOf mc := fun h => hhead mc' hmc' h.symm
      simp only [buildMergeMapStep]
      rw [lookup_goMapInsert_ne _ _ _ hne]
      exact hfresh mc' (by simp [hmc'])
    rw [ih (buildMergeMapStep acc mc) hrestfresh htail]
    have hlen : (buildMergeMapStep acc mc).startCells.length = acc.startCells.length + 1 := by
      simp only [buildMergeMapStep]
      rw [length_goMapInsert]
      simp [hfresh mc (by simp)]
    rw [hlen, List.length_cons]
    omega

/-- Disjoint well-formed ranges have pairwise distinct anchors. -/
theorem anchors_pairwise_ne :
    ∀ (mcs : List MergeCellRange), (∀ mc ∈ mcs, RangeWF mc) →
      mcs.Pairwise (fun a b => Disjoint (rectOf a) (rectOf b)) →
      mcs.Pairwise (fun a b => anchorOf a ≠ anchorOf b) := by
  intro mcs
  induction mcs with
  | nil => intro _ _; exact List.Pairwise.nil
  | cons mc rest ih =>
    intro hwf hd
    rcases List.pairwise_cons.mp hd with ⟨hhead, htail⟩
    refine List.pairwise_cons.mpr ⟨?_, ih (fun x hx => hwf x (by simp [hx])) htail⟩
    intro b hb heq
    have h1 : anchorOf mc ∈ rectOf mc := anchor_mem_rect mc (hwf mc (by simp))
    have h2 : anchorOf b ∈ rectOf b := anchor_mem_rect b (hwf b (by simp [hb]))
    have hdis := Finset.disjoint_left.mp (hhead b hb) h1
    rw [heq] at hdis
    exact hdis h2

end FFC

namespace FFC

/-- Two overlapping ranges: `A1:B1` and `B1:C1` in coordinates. -/
def mcsOverlap : List MergeCellRange :=
  [⟨1, 1, 2, 1⟩, ⟨2, 1, 3, 1⟩]

/-- **C8, counterexample.**  For an arbitrary list of merged ranges the
claimed invariants fail: with the overlapping ranges `A1:B1` and `B1:C1`,
cell `B1 = (2,1)` is marked both as an anchor (start of the second range)
and as covered (non-anchor member of the first range). -/
theorem buildMergeMap_overlap_violates :
    (((buildMergeMap mcsOverlap).startCells.lookup (2, 1)).isSome = true) ∧
    ((2, 1) ∈ (buildMergeMap mcsOverlap).coveredCells) := by
  refine ⟨?_, ?_⟩ <;> decide

/-- **C8 (amended).**  For every sheet whose merged ranges are well
formed (start ≤ end, as excelize reports them) and pairwise disjoint (as
Excel guarantees), the merge map marks exactly one anchor per range (the
number of anchor entries equals the number of ranges), no cell is both
an anchor and covered, and every covered cell lies inside exactly one
range's rectangle. -/
theorem buildMergeMap_invariants (mcs : List MergeCellRange)
    (hwf : ∀ mc ∈ mcs, RangeWF mc)
    (hdisj : mcs.Pairwise (fun a b => Disjoint (rectOf a) (rectOf b))) :
    ((buildMergeMap mcs).startCells.length = mcs.length) ∧
    (∀ k : Nat × Nat, (((buildMergeMap mcs).startCells.lookup k).isSome = true) →
      k ∉ (buildMergeMap mcs).coveredCells) ∧
    (∀ c ∈ (buildMergeMap mcs).coveredCells, ∃! mc, mc ∈ mcs ∧ c ∈ rectOf mc) := by
  have hsym : Symmetric (fun a b : MergeCellRange => Disjoint (rectOf a) (rectOf b)) :=
    fun _ _ h => h.symm
  have hdisjall := hdisj.forall hsym
  refine ⟨?_, ?_, ?_⟩
  · have h := length_startCells_foldl mcs { startCells := [], coveredCells := ∅ }
      (fun _ _ => rfl) (anchors_pairwise_ne mcs hwf hdisj)
    simpa [buildMergeMap] using h
  · intro k hk hcov
    rw [buildMergeMap, anchor_isSome_foldl] at hk
    rcases hk with hfalse | ⟨mc, hmc, hanc⟩
    · simp [List.lookup] at hfalse
    · rw [buildMergeMap, mem_covered_foldl] at hcov
      rcases hcov with hfalse | ⟨mc', hmc', hmem', hne'⟩
      · simp at hfalse
      · by_cases heq : mc' = mc
        · subst heq
          exact hne' hanc.symm
        · have hd := hdisjall hmc hmc' (fun h => heq h.symm)
          have hkmem : k ∈ rectOf mc := hanc ▸ anchor_mem_rect mc (hwf mc hmc)
          exact (Finset.disjoint_left.mp hd hkmem) hmem'
  · intro c hc
    rw [buildMergeMap, mem_covered_foldl] at hc
    rcases hc with hfalse | ⟨mc, hmc, hmem, hne⟩
    · simp at hfalse
    · refine ⟨mc, ⟨hmc, hmem⟩, ?_⟩
      rintro mc' ⟨hmc', hmem'⟩
      by_cases heq : mc' = mc
      · exact heq
      · have hd := hdisjall hmc' hmc heq
        exact absurd hmem (Finset.disjoint_left.mp hd hmem')

/-- **C8, witness**: two disjoint well-formed ranges (`A1:B2` and
`D1:D1`). -/
theorem buildMergeMap_invariants_witness :
    ((buildMergeMap [⟨1, 1, 2, 2⟩, ⟨4, 1, 4, 1⟩]).startCells.length = 2) ∧
    ((2, 2) ∈ (buildMergeMap [⟨1, 1, 2, 2⟩, ⟨4, 1, 4, 1⟩]).coveredCells) ∧
    (∀ k : Nat × Nat,
      (((buildMergeMap [⟨1, 1, 2, 2⟩, ⟨4, 1, 4, 1⟩]).startCells.lookup k).isSome = true) →
      k ∉ (buildMergeMap [⟨1, 1, 2, 2⟩, ⟨4, 1, 4, 1⟩]).coveredCells) := by
  have h := buildMergeMap_invariants [⟨1, 1, 2, 2⟩, ⟨4, 1, 4, 1⟩]
    (by
      intro mc hmc
      simp only [List.mem_cons, List.not_mem_nil, or_false] at hmc
      rcases hmc with rfl | rfl
      · exact ⟨by decide, by decide⟩
      · exact ⟨by decide, by decide⟩)
    (by
      refine List.pairwise_cons.mpr ⟨?_, List.pairwise_singleton _ _⟩
      intro b hb
      simp only [List.mem_singleton] at hb
      subst hb
      rw [Finset.disjoint_left]
      intro a ha hbm
      simp only [rectOf, Finset.mem_product, Finset.mem_Icc] at ha hbm
      omega)
  exact ⟨h.1, by decide, h.2.1⟩

end FFC

namespace FFC

/-! ## `internal/engines/document`: DOCX parser and HTML renderer

`DocxParser.parseDocumentXML` (docx_parser.go:127-384) is a fold of a
token-handling step over the pull-parser token stream of
`word/document.xml`; `encoding/xml` delivers element names without their
namespace prefix (`se.Name.Local`) and splits self-closing elements into
a start/end pair.  Byte indexing into style names coincides with
character indexing for the ASCII names involved.  Go's
`TextRun.FontSize` is `float64(sz)/2.0`; the model stores the half-point
integer `sz` and reproduces the renderer's `%.1f` formatting exactly for
it. -/

/-- `document.TextRun` (docx_parser.go:44-52). -/
structure TextRunD where
  text : String := ""
  isBold : Bool := false
  isItalic : Bool := false
  isUnderline : Bool := false
  isStrike : Bool := false
  /-- the raw `w:sz` value; Go stores `float64(sz)/2.0`. -/
  fontSizeHalfPt : Int := 0
  fontColor : String := ""
  deriving DecidableEq, Repr

/-- `document.Paragraph` (docx_parser.go:35-41). -/
structure ParagraphD where
  text : String := ""
  runs : List TextRunD := []
  style : String := ""
  headingLevel : Nat := 0
  alignment : String := ""
  deriving DecidableEq, Repr

/-- `document.TableCell` (docx_parser.go:79-84). -/
structure TableCellD where
  text : String := ""
  runs : List TextRunD := []
  colSpan : Nat := 0
  rowSpan : Nat := 0
  deriving DecidableEq, Repr

/-- `document.TableRow` (docx_parser.go:74-76). -/
structure TableRowD where
  cells : List TableCellD := []
  deriving DecidableEq, Repr

/-- `document.Table` (docx_parser.go:69-71). -/
structure TableD where
  rows : List TableRowD := []
  deriving DecidableEq, Repr

/-- `document.DocumentElement` restricted to the variants
`parseDocumentXML` actually constructs (the `List` variant is never
produced by the parser, docx_parser.go:127-384). -/
inductive DocumentElementD where
  | paragraph (p : ParagraphD)
  | table (t : TableD)
  deriving DecidableEq, Repr

/-- The tokens `xml.Decoder.Token` yields, with namespace-local names. -/
inductive XmlToken where
  | startElement (name : String) (attrs : List (String × String))
  | endElement (name : String)
  | charData (s : String)
  deriving DecidableEq, Repr

/-- The attribute scan `for _, attr := range se.Attr { if … == "val" }`:
the first `val` attribute, if any. -/
def attrVal (attrs : List (String × String)) : Option String :=
  attrs.lookup "val"

/-- Go `strings.TrimSpace` (ASCII whitespace suffices here). -/
def isSpaceChar (c : Char) : Bool :=
  c = ' ' ∨ c = '\t' ∨ c = '\n' ∨ c = '\r'

def goTrimSpace (s : String) : String :=
  String.mk (((s.data.dropWhile isSpaceChar).reverse.dropWhile isSpaceChar).reverse)

/-- `document.parseInt` (docx_parser.go:387-393): `fmt.Sscanf("%d")`
after trimming — an optional sign followed by at least one digit. -/
def goParseInt (s : String) : Option Int :=
  let t := goTrimSpace s
  match t.data with
  | '-' :: rest => (digitsVal rest).map (fun n => -(n : Int))
  | l => (digitsVal l).map (fun n => (n : Int))
where
  digitsVal (l : List Char) : Option Nat :=
    let ds := l.takeWhile Char.isDigit
    if ds.isEmpty then none
    else some (ds.foldl (fun acc c => acc * 10 + (c.toNat - '0'.toNat)) 0)

/-- The heading-level extraction of the `pStyle` handler
(docx_parser.go:177-195), identical for the `Heading` and `heading`
prefixes: strip spaces, read the digit at byte 7, accept 1..6. -/
def applyHeadingLevel (p : ParagraphD) (styleName : String) : ParagraphD :=
  let stripped := String.mk (styleName.data.filter (fun c => c ≠ ' '))
  if stripped.data.length > 7 then
    match stripped.data.get? 7 with
    | some c =>
      let level := c.toNat - '0'.toNat
      if 1 ≤ level ∧ level ≤ 6 then { p with headingLevel := level } else p
    | none => p
  else p

/-- The mutable parse state of `parseDocumentXML`
(docx_parser.go:128-144). -/
structure ParserState where
  elements : List DocumentElementD := []
  currentParagraph : Option ParagraphD := none
  currentTable : Option TableD := none
  currentTableRow : Option TableRowD := none
  currentTableCell : Option TableCellD := none
  currentRun : TextRunD := {}
  currentText : String := ""
  inParagraph : Bool := false
  inTable : Bool := false
  inTableRow : Bool := false
  inTableCell : Bool := false
  inRun : Bool := false
  inText : Bool := false
  inRunProperties : Bool := false
  deriving Repr

/-- The `xml.StartElement` arm of the token switch
(docx_parser.go:156-297). -/
def parseStartElement (st : ParserState) (name : String)
    (attrs : List (String × String)) : ParserState :=
  if name = "p" then
    { st with
      inParagraph := true
      currentParagraph := some { runs := [], alignment := "left", headingLevel := 0 } }
  else if name = "pPr" then st
  else if name = "pStyle" then
    match st.currentParagraph with
    | none => st
    | some p =>
      match attrVal attrs with
      | none => st
      | some styleName =>
        let p := { p with style := styleName }
        let p :=
          if goHasPrefix styleName "Heading" then applyHeadingLevel p styleName
          else if goHasPrefix styleName "heading" then applyHeadingLevel p styleName
          else p
        { st with currentParagraph := some p }
  else if name = "jc" then
    match st.currentParagraph with
    | none => st
    | some p =>
      match attrVal attrs with
      | none => st
      | some v =>
        let align :=
          if v = "center" then "center"
          else if v = "right" then "right"
          else if v = "both" then "justify"
          else "left"
        { st with currentParagraph := some { p with alignment := align } }
  else if name = "tbl" then
    { st with inTable := true, currentTable := some { rows := [] } }
  else if name = "tr" then
    if st.inTable then
      { st with inTableRow := true, currentTableRow := some { cells := [] } }
    else st
  else if name = "tc" then
    if st.inTableRow then
      { st with
        inTableCell := true
        currentTableCell := some { runs := [], colSpan := 1, rowSpan := 1 } }
    else st
  else if name = "r" then
    { st with inRun := true, currentRun := {}, currentText := "" }
  else if name = "rPr" then
    { st with inRunProperties := true }
  else if name = "b" then
    if st.inRunProperties then
      { st with currentRun := { st.currentRun with isBold := true } }
    else st
  else if name = "i" then
    if st.inRunProperties then
      { st with currentRun := { st.currentRun with isItalic := true } }
    else st
  else if name = "u" then
    if st.inRunProperties then
      { st with currentRun := { st.currentRun with isUnderline := true } }
    else st
  else if name = "strike" then
    if st.inRunProperties then
      { st with currentRun := { st.currentRun with isStrike := true } }
    else st
  else if name = "sz" then
    if st.inRunProperties then
      match attrVal attrs with
      | none => st
      | some v =>
        match goParseInt v with
        | some n => { st with currentRun := { st.currentRun with fontSizeHalfPt := n } }
        | none => st
    else st
  else if name = "color" then
    if st.inRunProperties then
      match attrVal attrs with
      | none => st
      | some v => { st with currentRun := { st.currentRun with fontColor := v } }
    else st
  else if name = "t" then
    { st with inText := true }
  else if name = "br" then
    if st.inRun then { st with currentText := st.currentText ++ "\n" } else st
  else st

/-- The `xml.EndElement` arm of the token switch
(docx_parser.go:299-374). -/
def parseEndElement (st : ParserState) (name : String) : ParserState :=
  if name = "p" then
    match st.currentParagraph with
    | some p =>
      if st.inParagraph then
        let paraText := goTrimSpace (String.join (p.runs.map (fun r => r.text)))
        let p := { p with text := paraText }
        let st :=
          if p.text ≠ "" ∨ p.runs.length > 0 then
            { st with elements := st.elements ++ [DocumentElementD.paragraph p] }
          else st
        { st with inParagraph := false, currentParagraph := none }
      else st
    | none => st
  else if name = "r" then
    let st :=
      if st.inRun then
        let run := { st.currentRun with text := st.currentText }
        let st :=
          match st.currentParagraph with
          | some p =>
            if st.inParagraph then
              { st with currentParagraph := some { p with runs := p.runs ++ [run] } }
            else
              match st.currentTableCell with
              | some c =>
                if st.inTableCell then
                  { st with currentTableCell := some { c with runs := c.runs ++ [run] } }
                else st
              | none => st
          | none =>
            match st.currentTableCell with
            | some c =>
              if st.inTableCell then
                { st with currentTableCell := some { c with runs := c.runs ++ [run] } }
              else st
            | none => st
        { st with inRun := false, currentRun := {}, currentText := "" }
      else st
    { st with inRunProperties := false }
  else if name = "rPr" then
    { st with inRunProperties := false }
  else if name = "t" then
    { st with inText := false }
  else if name = "tc" then
    match st.currentTableCell with
    | some c =>
      if st.inTableCell then
        let c := { c with text := goTrimSpace (String.join (c.runs.map (fun r => r.text))) }
        let st :=
          match st.currentTableRow with
          | some r => { st with currentTableRow := some { r with cells := r.cells ++ [c] } }
          | none => st
        { st with inTableCell := false, currentTableCell := none }
      else st
    | none => st
  else if name = "tr" then
    match st.currentTableRow with
    | some r =>
      if st.inTableRow then
        let st :=
          match st.currentTable with
          | some t => { st with currentTable := some { t with rows := t.rows ++ [r] } }
          | none => st
        { st with inTableRow := false, currentTableRow := none }
      else st
    | none => st
  else if name = "tbl" then
    match st.currentTable with
    | some t =>
      if st.inTable ∧ t.rows.length > 0 then
        { st with
          elements := st.elements ++ [DocumentElementD.table t]
          inTable := false
          currentTable := none }
      else st
    | none => st
  else st

/-- One token step of `parseDocumentXML`'s loop (docx_parser.go:146-381). -/
def parseToken (st : ParserState) : XmlToken → ParserState
  | .startElement name attrs => parseStartElement st name attrs
  | .endElement name => parseEndElement st name
  | .charData s =>
    if st.inText ∧ st.inRun then { st with currentText := st.currentText ++ s }
    else st

/-- `DocxParser.parseDocumentXML` over the token stream of
`word/document.xml`. -/
def parseDocumentXML (tokens : List XmlToken) : List DocumentElementD :=
  (tokens.foldl parseToken {}).elements

end FFC

namespace FFC

/-- The `%.1f` rendering of the Go font size `float64(sz)/2.0` for the
half-point integer `sz` (exact for half-point values). -/
def halfPtStr (n : Int) : String :=
  (if n < 0 then "-" else "") ++
    toString (n.natAbs / 2) ++ "." ++ (if n.natAbs % 2 = 1 then "5" else "0")

/-- `strings.ReplaceAll(text, "\n", "<br>")` (a single-character needle,
so character-wise replacement coincides). -/
def replaceNewlineBr (s : String) : String :=
  String.join (s.data.map (fun c => if c = '\n' then "<br>" else String.mk [c]))

/-- `strings.Join`-style interspersion used for the class and style
lists (html_renderer.go:230-246 writes separators before every element
but the first). -/
def joinSep (sep : String) : List String → String
  | [] => ""
  | x :: xs => x ++ String.join (xs.map (fun y => sep ++ y))

/-- `HTMLRenderer.renderTextRun` (html_renderer.go:189-259). -/
def renderTextRun (run : TextRunD) : String :=
  if run.text = "" then ""
  else
    let styles :=
      (if run.fontSizeHalfPt > 0 then ["font-size: " ++ halfPtStr run.fontSizeHalfPt ++ "pt"] else []) ++
      (if run.fontColor ≠ "" then
        [("color: " ++ (if run.fontColor.data.length = 6 then "#" ++ run.fontColor else run.fontColor))]
      else [])
    let classes :=
      (if run.isBold then ["bold"] else []) ++
      (if run.isItalic then ["italic"] else []) ++
      (if run.isUnderline then ["underline"] else []) ++
      (if run.isStrike then ["strike"] else [])
    let needsSpan := styles.length > 0 ∨ classes.length > 0
    let opening :=
      if needsSpan then
        "<span" ++
          (if classes.length > 0 then " class=\"" ++ joinSep " " classes ++ "\"" else "") ++
          (if styles.length > 0 then " style=\"" ++ joinSep "; " styles ++ "\"" else "") ++
          ">"
      else ""
    let body := replaceNewlineBr (htmlEscapeString run.text)
    opening ++ body ++ (if needsSpan then "</span>" else "")

/-- `HTMLRenderer.renderParagraph` (html_renderer.go:140-186). -/
def renderParagraph (p : ParagraphD) : String :=
  let tag :=
    if p.headingLevel > 0 ∧ p.headingLevel ≤ 6 then "h" ++ toString p.headingLevel
    else "p"
  let alignClass :=
    if p.alignment = "center" then "text-center"
    else if p.alignment = "right" then "text-right"
    else if p.alignment = "justify" then "text-justify"
    else "text-left"
  "<" ++ tag ++
    (if alignClass ≠ "" then " class=\"" ++ alignClass ++ "\"" else "") ++ ">" ++
    (if p.runs.length > 0 then String.join (p.runs.map renderTextRun)
     else if p.text ≠ "" then htmlEscapeString p.text
     else "") ++
    "</" ++ tag ++ ">\n"

/-- `HTMLRenderer.renderTable` (html_renderer.go:310-352): the first row
renders as `<th>` cells. -/
def renderTable (t : TableD) : String :=
  if t.rows.length = 0 then ""
  else
    "<table>\n" ++
      String.join (t.rows.enum.map (fun ir =>
        "<tr>\n" ++
          String.join (ir.2.cells.map (fun cell =>
            let tag := if ir.1 = 0 then "th" else "td"
            "<" ++ tag ++
              (if cell.colSpan > 1 then " colspan=\"" ++ toString cell.colSpan ++ "\"" else "") ++
              (if cell.rowSpan > 1 then " rowspan=\"" ++ toString cell.rowSpan ++ "\"" else "") ++
              ">" ++
              (if cell.runs.length > 0 then String.join (cell.runs.map renderTextRun)
               else if cell.text ≠ "" then htmlEscapeString cell.text
               else "") ++
              "</" ++ tag ++ ">\n")) ++
        "</tr>\n")) ++
      "</table>\n"

/-- The element dispatch of `Render`'s body loop
(html_renderer.go:124-133). -/
def renderElement : DocumentElementD → String
  | .paragraph p => renderParagraph p
  | .table t => renderTable t

/-- The document body `Render` emits between the fixed header and
`</body></html>`. -/
def renderElements (elems : List DocumentElementD) : String :=
  String.join (elems.map renderElement)

/-- The token stream `encoding/xml` produces for a `word/document.xml`
whose body is exactly
`<w:p><w:pPr><w:pStyle w:val="Heading1"/></w:pPr><w:r><w:rPr><w:b/></w:rPr><w:t>Hello</w:t></w:r></w:p>`
(namespace prefixes stripped by `Name.Local`, self-closing elements split
into start/end pairs). -/
def headingBoldTokens : List XmlToken :=
  [.startElement "document" [],
   .startElement "body" [],
   .startElement "p" [],
   .startElement "pPr" [],
   .startElement "pStyle" [("val", "Heading1")],
   .endElement "pStyle",
   .endElement "pPr",
   .startElement "r" [],
   .startElement "rPr" [],
   .startElement "b" [],
   .endElement "b",
   .endElement "rPr",
   .startElement "t" [],
   .charData "Hello",
   .endElement "t",
   .endElement "r",
   .endElement "p",
   .endElement "body",
   .endElement "document"]

/-- **C6.**  Parsing the DOCX body consisting of one `Heading1` paragraph
with one bold run `Hello` and rendering it yields a body that is exactly
the fragment `<h1 class="text-left"><span class="bold">Hello</span></h1>`
(followed by the paragraph newline the renderer always appends). -/
theorem docx_heading_bold_renders_h1 :
    renderElements (parseDocumentXML headingBoldTokens) =
      "<h1 class=\"text-left\"><span class=\"bold\">Hello</span></h1>\n" := by
  decide

end FFC
